import Mathlib

/-!
Verification of the selector-optimization core and snapshot store of
react-copy-write (src/index.js, the variant implementing the
unstable_observedBits optimization).

Selectors are JavaScript function objects compared by reference identity;
we model them by natural-number identifiers.  A selector that carries a
numeric `observedBits` property (set by `createSelector`) is "tagged"; we
model the property as `observedBits : Nat → Option Nat`, with `none` for
selectors that never passed through `createSelector`.

JavaScript collections are modelled as follows:
* `selectorBits` (an Array used as a stack via push/pop) is a `List Nat`
  whose last element is the top of the stack;
* `optimizationQueue` (an Array used via push/pop) likewise;
* `selectorReferenceCount` (a Map) is a function `Nat → Option Nat`;
* `optimizedSelectors` (a Set, which preserves insertion order and never
  holds duplicates) is a `List Nat` to which `setAdd` adds an element only
  when absent.

A thrown `invariant(...)` is modelled by `Except.error msg`; since the
source throws before any mutation on those paths, an error leaves the
closure state untouched.
-/

namespace ReactCopyWrite

def MAX_SIGNED_31_BIT_INT : Nat := 1073741823

def DEOPTIMIZED_SELECTOR : Nat := 1

/-- The `while (bit < MAX_SIGNED_31_BIT_INT) { selectorBits.push(bit); bit <<= 1 }`
loop, written with fuel; starting from `bit = 2` it runs 29 iterations, so any
fuel of at least 30 computes the full list. -/
def selectorBitsLoop : Nat → Nat → List Nat
  | 0, _ => []
  | fuel + 1, bit =>
    if bit < MAX_SIGNED_31_BIT_INT then bit :: selectorBitsLoop fuel (bit <<< 1) else []

/-- `let selectorBits = []; let bit = 2; while (bit < MAX_SIGNED_31_BIT_INT) ...` -/
def initSelectorBits : List Nat := selectorBitsLoop 64 2

/-- JavaScript `Set.prototype.add`: insertion-ordered, ignores duplicates. -/
def setAdd (l : List Nat) (x : Nat) : List Nat := if x ∈ l then l else l ++ [x]

/-- The closure state of the optimization core inside `createCopyOnWriteState`. -/
structure CoreState where
  selectorBits : List Nat
  optimizationQueue : List Nat
  selectorReferenceCount : Nat → Option Nat
  optimizedSelectors : List Nat
  observedBits : Nat → Option Nat

/-- `optimizeSelector(selector)` from the source: bail out on untagged
selectors, bump the reference count, return early if already optimized,
enqueue on the overflow queue if the bit pool is empty, otherwise pop a bit
and add the selector to the optimized set. -/
def optimizeSelector (s : CoreState) (x : Nat) : CoreState :=
  match s.observedBits x with
  | none => s
  | some ob =>
    let rc := (s.selectorReferenceCount x).getD 0
    let refMap := Function.update s.selectorReferenceCount x (some (rc + 1))
    if ob ≠ DEOPTIMIZED_SELECTOR then
      { s with selectorReferenceCount := refMap }
    else
      match s.selectorBits.getLast? with
      | none =>
        { s with selectorReferenceCount := refMap,
                 optimizationQueue := s.optimizationQueue ++ [x] }
      | some b =>
        { s with selectorReferenceCount := refMap,
                 selectorBits := s.selectorBits.dropLast,
                 observedBits := Function.update s.observedBits x (some b),
                 optimizedSelectors := setAdd s.optimizedSelectors x }

/-- The message of the `invariant` inside `deoptimizeSelector` (including the
source's typo). -/
def deoptInvariantMessage : String :=
  "react-copy-write: attempted to deoptimize a selector that was never " ++
  "optimized. This is likey a bug with react-copy-write"

/-- `deoptimizeSelector(selector)` from the source: bail out on untagged
selectors, silently ignore selectors outside the optimized set, raise the
invariant if the reference count is missing or zero, otherwise decrement;
on reaching zero, push the bit back, reset `observedBits`, drop the selector
from the map and the set, and promote the most recently queued selector
(Array `pop`) by re-running `optimizeSelector` on it. -/
def deoptimizeSelector (s : CoreState) (x : Nat) : Except String CoreState :=
  match s.observedBits x with
  | none => Except.ok s
  | some ob =>
    if x ∈ s.optimizedSelectors then
      match s.selectorReferenceCount x with
      | none => Except.error deoptInvariantMessage
      | some referenceCount =>
        if referenceCount = 0 then Except.error deoptInvariantMessage
        else if referenceCount - 1 = 0 then
          let s1 : CoreState :=
            { s with selectorBits := s.selectorBits ++ [ob],
                     observedBits := Function.update s.observedBits x
                       (some DEOPTIMIZED_SELECTOR),
                     selectorReferenceCount :=
                       Function.update s.selectorReferenceCount x none,
                     optimizedSelectors := s.optimizedSelectors.erase x }
          match s1.optimizationQueue.getLast? with
          | none => Except.ok s1
          | some y =>
            Except.ok (optimizeSelector
              { s1 with optimizationQueue := s1.optimizationQueue.dropLast } y)
        else
          Except.ok { s with
            selectorReferenceCount :=
              Function.update s.selectorReferenceCount x
                (some (referenceCount - 1)) }
    else Except.ok s

/-- `createSelector(fn)` sets `fn.observedBits = DEOPTIMIZED_SELECTOR` on a
fresh function object. -/
def createSelector (s : CoreState) (x : Nat) : CoreState :=
  { s with observedBits :=
      Function.update s.observedBits x (some DEOPTIMIZED_SELECTOR) }

/-- The core state right after `createCopyOnWriteState` runs: full bit pool,
no tracked selectors. -/
def initialCoreState : CoreState :=
  { selectorBits := initSelectorBits,
    optimizationQueue := [],
    selectorReferenceCount := fun _ => none,
    optimizedSelectors := [],
    observedBits := fun _ => none }

/-- A fresh core in which selectors `0, ..., n-1` have been created via
`createSelector` (tagged, unoptimized) and nothing has been referenced yet. -/
def mkFreshCore (n : Nat) : CoreState :=
  { selectorBits := initSelectorBits,
    optimizationQueue := [],
    selectorReferenceCount := fun _ => none,
    optimizedSelectors := [],
    observedBits := fun x => if x < n then some DEOPTIMIZED_SELECTOR else none }

/-- JavaScript coercion of a selector function object to a 31-bit integer:
`ToNumber` of a function is `NaN` and `ToInt32(NaN) = 0`.  The source's
`optimizedSelectors.forEach((bits, selector) => ...)` runs on a `Set`, whose
`forEach` passes the stored element as both `bits` and `selector`, so the
value OR-ed into `changedBits` is the function object coerced to 0. -/
def selectorAsInt32 : Nat := 0

/-- The `calculateChangedBits` callback passed to `React.createContext`:
`eval x snap` models applying selector `x` to snapshot `snap`, where equal
results model reference equality. -/
def calculateChangedBits (s : CoreState) (eval : Nat → Nat → Nat)
    (stale current : Nat) : Nat :=
  s.optimizedSelectors.foldl
    (fun changedBits x =>
      if eval x stale ≠ eval x current then changedBits ||| selectorAsInt32
      else changedBits)
    DEOPTIMIZED_SELECTOR

/-- Modelled from the spec: the intended changed-bits computation, which ORs
in the differing selector's assigned `observedBits` value (what the source's
`changedBits |= bits` would compute if `optimizedSelectors` were a `Map` from
selectors to their bits). -/
def specChangedBits (s : CoreState) (eval : Nat → Nat → Nat)
    (stale current : Nat) : Nat :=
  s.optimizedSelectors.foldl
    (fun changedBits x =>
      if eval x stale ≠ eval x current then
        changedBits ||| (s.observedBits x).getD 0
      else changedBits)
    DEOPTIMIZED_SELECTOR

/-- The snapshot store closed over by `createCopyOnWriteState`: the current
snapshot (an identifier, where equality models reference equality) and
whether a `CopyOnWriteStoreProvider` is mounted (`providerListener !== null`). -/
structure StoreState where
  currentState : Nat
  providerListener : Bool

/-- The `invariant` message of `update` (including the source's typo
"moutned"). -/
def updateErrorMessage : String :=
  "update(...): you cannot call update when no CopyOnWriteStoreProvider " ++
  "instance is mounted. Make sure to wrap your consumer components with " ++
  "the returned Provider, and/or delay your update calls until the component " ++
  "tree is moutned."

/-- `update(fn)` from the source: raise if no provider is mounted, run the
recipe through immer's `produce` (modelled by `fn`, mapping the current
snapshot to the produced one; immer returns the identical reference when the
draft is untouched), and only on a reference change store the new snapshot
and invoke the provider listener.  The returned `Bool` records whether the
listener (broadcast) was invoked. -/
def update (s : StoreState) (fn : Nat → Nat) : Except String (StoreState × Bool) :=
  if s.providerListener = false then Except.error updateErrorMessage
  else
    let nextState := fn s.currentState
    if nextState ≠ s.currentState then
      Except.ok ({ s with currentState := nextState }, true)
    else
      Except.ok (s, false)

/-- The closure state after an `update` call, where a thrown invariant leaves
the state untouched. -/
def applyUpdate (s : StoreState) (fn : Nat → Nat) : StoreState :=
  match update s fn with
  | Except.error _ => s
  | Except.ok (s1, _) => s1

example : initSelectorBits.length = 29 := by decide

example : initSelectorBits = (List.range 29).map fun i => 2 ^ (i + 1) := by decide

/-- The changed-bits fold never accumulates anything: each step ORs in
`selectorAsInt32 = 0`. -/
lemma foldl_changed_bits_const (eval : Nat → Nat → Nat) (stale current : Nat) :
    ∀ (l : List Nat) (cb : Nat),
      l.foldl (fun changedBits x =>
        if eval x stale ≠ eval x current then changedBits ||| selectorAsInt32
        else changedBits) cb = cb := by
  intro l
  induction l with
  | nil => intro cb; rfl
  | cons a l ih =>
    intro cb
    simp only [List.foldl_cons]
    rw [show (if eval a stale ≠ eval a current then cb ||| selectorAsInt32
        else cb) = cb by unfold selectorAsInt32; split <;> simp]
    exact ih cb

/-- A store with a single optimized selector (id 0) holding assigned bit 2. -/
def oneOptimizedState : CoreState :=
  { selectorBits := [],
    optimizationQueue := [],
    selectorReferenceCount := fun x => if x = 0 then some 1 else none,
    optimizedSelectors := [0],
    observedBits := fun x => if x = 0 then some 2 else none }

/-- A selector evaluation environment in which every selector returns the
snapshot itself, so results on distinct snapshots are reference-unequal. -/
def snapshotEval : Nat → Nat → Nat := fun _ snap => snap

/-- C1: the broadcast changed-bits value never includes any optimized
selector's assigned bit.  The source iterates `optimizedSelectors` (a `Set`)
with `forEach((bits, selector) => ...)`, and `Set.forEach` passes the element
as both arguments, so `changedBits |= bits` ORs in the selector function
object coerced to 0; the result is always the sentinel 1.  On a store whose
sole optimized selector holds bit 2 and yields different results on the two
snapshots, the code broadcasts 1 while the claimed computation yields
1 OR 2 = 3. -/
theorem calculateChangedBits_ignores_selector_bits :
    (∀ (s : CoreState) (eval : Nat → Nat → Nat) (stale current : Nat),
        calculateChangedBits s eval stale current = DEOPTIMIZED_SELECTOR) ∧
      calculateChangedBits oneOptimizedState snapshotEval 0 1 = 1 ∧
      specChangedBits oneOptimizedState snapshotEval 0 1 = 3 := by
  refine ⟨?_, by decide, by decide⟩
  intro s eval stale current
  exact foldl_changed_bits_const eval stale current s.optimizedSelectors
    DEOPTIMIZED_SELECTOR

/-- C9: referencing or dereferencing a selector that carries no numeric
`observedBits` tag (one not created via `createSelector`) is a complete
no-op: the state is returned unchanged, so the selector never enters the
reference-count map, the optimized set, or the overflow queue, and no bit is
consumed. -/
theorem untagged_selector_ops_noop (s : CoreState) (x : Nat)
    (h : s.observedBits x = none) :
    optimizeSelector s x = s ∧ deoptimizeSelector s x = Except.ok s := by
  constructor
  · simp [optimizeSelector, h]
  · simp [deoptimizeSelector, h]

/-- Witness for C9 at a concrete input: selector 5 is untagged in a fresh
core holding one created selector. -/
theorem untagged_selector_ops_noop_witness :
    optimizeSelector (mkFreshCore 1) 5 = mkFreshCore 1 ∧
      deoptimizeSelector (mkFreshCore 1) 5 = Except.ok (mkFreshCore 1) :=
  untagged_selector_ops_noop (mkFreshCore 1) 5 rfl

/-- C4 counterexample: dereferencing a tagged selector that was never
referenced (hence not tracked) is silently ignored — `deoptimizeSelector`
returns the state unchanged and raises no error, whereas the claim demands
an invariant-violation error for every untracked dereference. -/
theorem deoptimize_untracked_silent_counterexample :
    deoptimizeSelector (mkFreshCore 1) 0 = Except.ok (mkFreshCore 1) := rfl

/-- A state exhibiting the two corrupt shapes that do raise the invariant:
selector 0 is in the optimized set with no reference-count entry, and
selector 1 is in the optimized set with a zero reference count. -/
def corruptRefCountState : CoreState :=
  { selectorBits := [],
    optimizationQueue := [],
    selectorReferenceCount := fun x => if x = 1 then some 0 else none,
    optimizedSelectors := [0, 1],
    observedBits := fun x => if x = 0 then some 2 else
      if x = 1 then some 4 else none }

/-- C4 (amended): dereferencing a selector that is not in the optimized set
is silently ignored — an early return that modifies no state; the
invariant-violation error is raised only for a selector that is in the
optimized set while its reference count is absent or zero. -/
theorem deoptimize_untracked_behavior (s : CoreState) (x : Nat) :
    (x ∉ s.optimizedSelectors → deoptimizeSelector s x = Except.ok s) ∧
      (∀ ob, s.observedBits x = some ob → x ∈ s.optimizedSelectors →
        s.selectorReferenceCount x = none →
        deoptimizeSelector s x = Except.error deoptInvariantMessage) ∧
      (∀ ob, s.observedBits x = some ob → x ∈ s.optimizedSelectors →
        s.selectorReferenceCount x = some 0 →
        deoptimizeSelector s x = Except.error deoptInvariantMessage) := by
  refine ⟨?_, ?_, ?_⟩
  · intro hx
    unfold deoptimizeSelector
    cases h : s.observedBits x with
    | none => rfl
    | some ob => simp [hx]
  · intro ob hob hmem hrc
    simp [deoptimizeSelector, hob, hmem, hrc]
  · intro ob hob hmem hrc
    simp [deoptimizeSelector, hob, hmem, hrc]

/-- Witness for C4 (amended) at concrete inputs: a not-optimized selector is
ignored, and both corrupt reference-count shapes raise the invariant. -/
theorem deoptimize_untracked_behavior_witness :
    deoptimizeSelector (mkFreshCore 2) 1 = Except.ok (mkFreshCore 2) ∧
      deoptimizeSelector corruptRefCountState 0 =
        Except.error deoptInvariantMessage ∧
      deoptimizeSelector corruptRefCountState 1 =
        Except.error deoptInvariantMessage :=
  ⟨(deoptimize_untracked_behavior (mkFreshCore 2) 1).1 (by decide),
   (deoptimize_untracked_behavior corruptRefCountState 0).2.1 2 rfl
     (by decide) rfl,
   (deoptimize_untracked_behavior corruptRefCountState 1).2.2 4 rfl
     (by decide) rfl⟩

/-- C7: calling `update` while no `CopyOnWriteStoreProvider` is mounted
raises the descriptive invariant error (whose message names the missing
`CopyOnWriteStoreProvider`), and the held snapshot is unchanged by the
failed call. -/
theorem update_without_provider_errors (s : StoreState) (fn : Nat → Nat)
    (h : s.providerListener = false) :
    update s fn = Except.error updateErrorMessage ∧ applyUpdate s fn = s := by
  constructor
  · simp [update, h]
  · simp [applyUpdate, update, h]

/-- Witness for C7 at a concrete input: an unmounted store with snapshot 0. -/
theorem update_without_provider_errors_witness :
    update ⟨0, false⟩ id = Except.error updateErrorMessage ∧
      applyUpdate ⟨0, false⟩ id = ⟨0, false⟩ :=
  update_without_provider_errors ⟨0, false⟩ id rfl

/-- C8: when the recipe produces no observable change (immer's `produce`
returns the identical reference), `update` leaves the held snapshot exactly
as it was and does not invoke the provider listener — no broadcast occurs. -/
theorem noop_update_no_broadcast (s : StoreState) (fn : Nat → Nat)
    (hm : s.providerListener = true)
    (hfn : fn s.currentState = s.currentState) :
    update s fn = Except.ok (s, false) := by
  simp [update, hm, hfn]

/-- Witness for C8 at a concrete input: the identity recipe on a mounted
store with snapshot 7. -/
theorem noop_update_no_broadcast_witness :
    update ⟨7, true⟩ id = Except.ok (⟨7, true⟩, false) :=
  noop_update_no_broadcast ⟨7, true⟩ id rfl rfl

/-- The state reached from a fresh core holding 32 created selectors after
referencing selectors 0 through 31 once each, in order. -/
def exhaustionScenario : CoreState :=
  (List.range 32).foldl optimizeSelector (mkFreshCore 32)

/-- C6: referencing 32 distinct freshly created tagged selectors once each
leaves the first 29 optimized with pairwise-distinct assigned bits, while
the remaining 3 stay unoptimized (`observedBits = 1`) and are enqueued on
the overflow queue in order; the empty bit pool produces no error (the
operation is total and simply defers the last three selectors). -/
theorem bit_pool_exhaustion_scenario :
    exhaustionScenario.optimizedSelectors = List.range 29 ∧
      exhaustionScenario.selectorBits = [] ∧
      exhaustionScenario.optimizationQueue = [29, 30, 31] ∧
      (∀ i ∈ List.range 29,
        (exhaustionScenario.observedBits i).getD 0 ≠ DEOPTIMIZED_SELECTOR) ∧
      ((List.range 29).map fun i =>
        (exhaustionScenario.observedBits i).getD 0).Nodup ∧
      (∀ i ∈ [29, 30, 31],
        exhaustionScenario.observedBits i = some DEOPTIMIZED_SELECTOR) ∧
      (∀ i ∈ List.range 32,
        exhaustionScenario.selectorReferenceCount i = some 1) := by
  decide

/-- A state with one optimized selector (0, holding bit 2, one reference),
an empty bit pool, and two tagged-unoptimized selectors enqueued on the
overflow queue in order: 1 first (oldest), then 2. -/
def lifoQueueState : CoreState :=
  { selectorBits := [],
    optimizationQueue := [1, 2],
    selectorReferenceCount := fun x => if x ≤ 2 then some 1 else none,
    optimizedSelectors := [0],
    observedBits := fun x =>
      if x = 0 then some 2
      else if x ≤ 2 then some DEOPTIMIZED_SELECTOR else none }

/-- The state after dereferencing selector 0 of `lifoQueueState` to zero. -/
def lifoQueueResult : CoreState :=
  (deoptimizeSelector lifoQueueState 0).toOption.getD lifoQueueState

/-- C2 counterexample: dereferencing the optimized selector 0 to zero frees
bit 2, but the promotion uses Array `pop` on the overflow queue, so the most
recently enqueued selector 2 is granted the bit while the oldest eligible
selector 1 stays unoptimized and queued — refuting the claim that the
earliest-queued selector is promoted. -/
theorem overflow_promotion_lifo_counterexample :
    (deoptimizeSelector lifoQueueState 0).isOk = true ∧
      lifoQueueResult.observedBits 2 = some 2 ∧
      2 ∈ lifoQueueResult.optimizedSelectors ∧
      lifoQueueResult.observedBits 1 = some DEOPTIMIZED_SELECTOR ∧
      lifoQueueResult.optimizationQueue = [1] ∧
      1 ∉ lifoQueueResult.optimizedSelectors := by
  decide

/-- Selectors 1 through 29 referenced once each (consuming the whole bit
pool), then selector 0 referenced once, which lands it on the overflow
queue. -/
def overflowedSelectorState : CoreState :=
  optimizeSelector
    ((List.range 29).foldl (fun s i => optimizeSelector s (i + 1))
      (mkFreshCore 30)) 0

/-- The state after dereferencing the overflowed selector 0 once. -/
def overflowedDerefResult : CoreState :=
  (deoptimizeSelector overflowedSelectorState 0).toOption.getD
    overflowedSelectorState

/-- C3 counterexample: an interleaving in which the bit pool is exhausted
before selector 0 is first referenced.  Selector 0 receives exactly one
reference and one dereference (N = 1), yet afterwards it is still tracked:
its reference count remains 1 and it still sits on the overflow queue,
because `deoptimizeSelector` silently ignores selectors outside the
optimized set. -/
theorem ref_deref_symmetry_counterexample :
    overflowedSelectorState.selectorReferenceCount 0 = some 1 ∧
      0 ∈ overflowedSelectorState.optimizationQueue ∧
      (deoptimizeSelector overflowedSelectorState 0).isOk = true ∧
      overflowedDerefResult.selectorReferenceCount 0 = some 1 ∧
      0 ∈ overflowedDerefResult.optimizationQueue := by
  decide

lemma setAdd_mem_self (l : List Nat) (x : Nat) : x ∈ setAdd l x := by
  unfold setAdd
  split
  · assumption
  · simp

/-- `optimizeSelector` records the incremented reference count in every
branch it can take on a tagged selector. -/
lemma optimizeSelector_refcount (s : CoreState) (y ob : Nat)
    (h : s.observedBits y = some ob) :
    (optimizeSelector s y).selectorReferenceCount =
      Function.update s.selectorReferenceCount y
        (some ((s.selectorReferenceCount y).getD 0 + 1)) := by
  unfold optimizeSelector
  rw [h]
  dsimp only
  split
  · rfl
  · split <;> rfl

/-- C2 (amended): when the overflow queue is non-empty, dereferencing an
optimized selector down to reference count zero releases its bit and
immediately grants that bit to the **most recently enqueued** tagged
selector (Array `pop`, LIFO), which transitions from unoptimized to
optimized within the same dereference operation. -/
theorem deref_promotes_latest_queued (s : CoreState) (x y obx : Nat)
    (q : List Nat)
    (hx : s.observedBits x = some obx)
    (hxopt : x ∈ s.optimizedSelectors)
    (hrc : s.selectorReferenceCount x = some 1)
    (hq : s.optimizationQueue = q ++ [y])
    (hy : s.observedBits y = some DEOPTIMIZED_SELECTOR)
    (hyx : y ≠ x) :
    ∃ s', deoptimizeSelector s x = Except.ok s' ∧
      s'.observedBits y = some obx ∧
      y ∈ s'.optimizedSelectors ∧
      s'.observedBits x = some DEOPTIMIZED_SELECTOR ∧
      s'.optimizationQueue = q := by
  have hoby : Function.update s.observedBits x (some 1) y = some 1 := by
    rw [Function.update_noteq hyx]
    exact hy
  refine ⟨optimizeSelector
    { s with selectorBits := s.selectorBits ++ [obx],
             observedBits := Function.update s.observedBits x (some 1),
             selectorReferenceCount :=
               Function.update s.selectorReferenceCount x none,
             optimizedSelectors := s.optimizedSelectors.erase x,
             optimizationQueue := q } y, ?_, ?_, ?_, ?_, ?_⟩
  · simp [deoptimizeSelector, DEOPTIMIZED_SELECTOR, hx, hxopt, hrc, hq,
      List.getLast?_concat, List.dropLast_concat]
  · simp [optimizeSelector, hoby, DEOPTIMIZED_SELECTOR, List.getLast?_concat,
      Function.update_same]
  · simp [optimizeSelector, hoby, DEOPTIMIZED_SELECTOR, List.getLast?_concat,
      setAdd_mem_self]
  · simp [optimizeSelector, hoby, DEOPTIMIZED_SELECTOR, List.getLast?_concat,
      Function.update_noteq hyx.symm, Function.update_same]
  · simp [optimizeSelector, hoby, DEOPTIMIZED_SELECTOR, List.getLast?_concat]

/-- Witness for C2 (amended) at a concrete input: dereferencing selector 0
of `lifoQueueState` promotes the most recently enqueued selector 2. -/
theorem deref_promotes_latest_queued_witness :
    ∃ s', deoptimizeSelector lifoQueueState 0 = Except.ok s' ∧
      s'.observedBits 2 = some 2 ∧
      2 ∈ s'.optimizedSelectors ∧
      s'.observedBits 0 = some DEOPTIMIZED_SELECTOR ∧
      s'.optimizationQueue = [1] :=
  deref_promotes_latest_queued lifoQueueState 0 2 2 [1] rfl (by decide) rfl
    rfl rfl (by decide)

/-- C10: when a dereference frees a bit and the overflow queue is non-empty,
the promotion path re-runs the full `optimizeSelector` on the promoted
selector, so the promoted selector's stored reference count is incremented
by one even though no new reader mounted. -/
theorem promotion_increments_refcount (s : CoreState) (x y obx oby : Nat)
    (hx : s.observedBits x = some obx)
    (hxopt : x ∈ s.optimizedSelectors)
    (hrc : s.selectorReferenceCount x = some 1)
    (hlast : s.optimizationQueue.getLast? = some y)
    (hy : s.observedBits y = some oby)
    (hyx : y ≠ x) :
    ∃ s', deoptimizeSelector s x = Except.ok s' ∧
      s'.selectorReferenceCount y =
        some ((s.selectorReferenceCount y).getD 0 + 1) := by
  have hoby : Function.update s.observedBits x (some 1) y = some oby := by
    rw [Function.update_noteq hyx]
    exact hy
  refine ⟨optimizeSelector
    { s with selectorBits := s.selectorBits ++ [obx],
             observedBits := Function.update s.observedBits x (some 1),
             selectorReferenceCount :=
               Function.update s.selectorReferenceCount x none,
             optimizedSelectors := s.optimizedSelectors.erase x,
             optimizationQueue := s.optimizationQueue.dropLast } y, ?_, ?_⟩
  · simp [deoptimizeSelector, DEOPTIMIZED_SELECTOR, hx, hxopt, hrc, hlast]
  · rw [optimizeSelector_refcount _ y oby hoby]
    simp [Function.update_same, Function.update_noteq hyx]

/-- A state with one optimized selector (0, bit 2, one reference) and one
tagged selector (3) waiting on the overflow queue with reference count 1. -/
def promotionState : CoreState :=
  { selectorBits := [],
    optimizationQueue := [3],
    selectorReferenceCount := fun x =>
      if x = 0 then some 1 else if x = 3 then some 1 else none,
    optimizedSelectors := [0],
    observedBits := fun x =>
      if x = 0 then some 2
      else if x = 3 then some DEOPTIMIZED_SELECTOR else none }

/-- Witness for C10 at a concrete input: promoting selector 3 (one mounted
reader, reference count 1) bumps its stored count to 2. -/
theorem promotion_increments_refcount_witness :
    ∃ s', deoptimizeSelector promotionState 0 = Except.ok s' ∧
      s'.selectorReferenceCount 3 = some 2 :=
  promotion_increments_refcount promotionState 0 3 2 DEOPTIMIZED_SELECTOR rfl
    (by decide) rfl rfl rfl (by decide)

/-- `n` consecutive `optimizeSelector` calls on the same selector. -/
def optN (s : CoreState) (x : Nat) : Nat → CoreState
  | 0 => s
  | n + 1 => optN (optimizeSelector s x) x n

/-- `n` consecutive `deoptimizeSelector` calls on the same selector,
propagating a thrown invariant. -/
def deoptN (s : CoreState) (x : Nat) : Nat → Except String CoreState
  | 0 => Except.ok s
  | n + 1 =>
    match deoptimizeSelector s x with
    | Except.error e => Except.error e
    | Except.ok s1 => deoptN s1 x n

/-- The state after selector `x` has been granted the top pool bit `b` and
holds `m` references, relative to a base state `s` in which it was fresh. -/
def heldState (s : CoreState) (x b m : Nat) : CoreState :=
  { selectorBits := s.selectorBits.dropLast,
    optimizationQueue := s.optimizationQueue,
    selectorReferenceCount :=
      Function.update s.selectorReferenceCount x (some m),
    optimizedSelectors := s.optimizedSelectors ++ [x],
    observedBits := Function.update s.observedBits x (some b) }

lemma dropLast_append_of_getLast? (l : List Nat) (b : Nat)
    (h : l.getLast? = some b) : l.dropLast ++ [b] = l := by
  cases l with
  | nil => simp at h
  | cons a l =>
    rw [List.getLast?_eq_getLast _ (by simp)] at h
    obtain rfl : (a :: l).getLast (by simp) = b := by
      exact Option.some_injective _ h
    exact List.dropLast_append_getLast (by simp)

/-- The first reference of a fresh tagged selector with a non-empty pool
grants it the top pool bit at reference count 1. -/
lemma optimize_fresh (s : CoreState) (x b : Nat)
    (htag : s.observedBits x = some DEOPTIMIZED_SELECTOR)
    (hrc : s.selectorReferenceCount x = none)
    (hopt : x ∉ s.optimizedSelectors)
    (hpool : s.selectorBits.getLast? = some b) :
    optimizeSelector s x = heldState s x b 1 := by
  simp [optimizeSelector, DEOPTIMIZED_SELECTOR, heldState, setAdd, htag, hrc,
    hopt, hpool]

/-- Referencing an already-optimized selector only bumps its count. -/
lemma optimize_held (s : CoreState) (x b m : Nat)
    (hb : b ≠ DEOPTIMIZED_SELECTOR) :
    optimizeSelector (heldState s x b m) x = heldState s x b (m + 1) := by
  simp [optimizeSelector, heldState, Function.update_same,
    Function.update_idem, hb]

/-- Dereferencing an optimized selector with more than one reference only
decrements its count. -/
lemma deoptimize_held_decrement (s : CoreState) (x b m : Nat) (hm : m ≠ 0) :
    deoptimizeSelector (heldState s x b (m + 1)) x =
      Except.ok (heldState s x b m) := by
  simp [deoptimizeSelector, heldState, Function.update_same,
    Function.update_idem, hm]

/-- The final dereference of the selector restores the base state exactly:
the bit goes back on top of the pool, `observedBits` returns to the
sentinel, and the selector leaves the map and the optimized set. -/
lemma deoptimize_held_release (s : CoreState) (x b : Nat)
    (htag : s.observedBits x = some DEOPTIMIZED_SELECTOR)
    (hrc : s.selectorReferenceCount x = none)
    (hopt : x ∉ s.optimizedSelectors)
    (hpool : s.selectorBits.getLast? = some b)
    (hqueue : s.optimizationQueue = []) :
    deoptimizeSelector (heldState s x b 1) x = Except.ok s := by
  obtain ⟨sb, oq, rc, os, ob⟩ := s
  simp only [heldState] at *
  simp [deoptimizeSelector, Function.update_same, Function.update_idem,
    hqueue, CoreState.mk.injEq]
  refine ⟨?_, ?_, ?_, ?_⟩
  · exact dropLast_append_of_getLast? sb b hpool
  · exact hrc.symm
  · rw [List.erase_append_right _ hopt, List.erase_cons_head, List.append_nil]
  · exact htag.symm

lemma optN_held (s : CoreState) (x b : Nat) (hb : b ≠ DEOPTIMIZED_SELECTOR) :
    ∀ k m, optN (heldState s x b m) x k = heldState s x b (m + k) := by
  intro k
  induction k with
  | zero => intro m; simp [optN]
  | succ k ih =>
    intro m
    show optN (optimizeSelector (heldState s x b m) x) x k = _
    rw [optimize_held s x b m hb, ih (m + 1)]
    congr 1
    omega

lemma deoptN_held (s : CoreState) (x b : Nat)
    (htag : s.observedBits x = some DEOPTIMIZED_SELECTOR)
    (hrc : s.selectorReferenceCount x = none)
    (hopt : x ∉ s.optimizedSelectors)
    (hpool : s.selectorBits.getLast? = some b)
    (hqueue : s.optimizationQueue = []) :
    ∀ k, deoptN (heldState s x b (k + 1)) x (k + 1) = Except.ok s := by
  intro k
  induction k with
  | zero =>
    simp [deoptN, deoptimize_held_release s x b htag hrc hopt hpool hqueue]
  | succ k ih =>
    show deoptN (heldState s x b (k + 1 + 1)) x (k + 1 + 1) = Except.ok s
    simp only [deoptN,
      deoptimize_held_decrement s x b (k + 1) (Nat.succ_ne_zero k)]
    exact ih

/-- C3 (amended): from any state in which the selector is tagged but
unoptimized and untracked, the overflow queue is empty, and the bit pool is
non-empty with a legal (non-sentinel) bit on top, N consecutive reference
calls followed by N consecutive dereference calls (with no other operations
interleaved) return the core exactly to the starting state: the selector is
absent from the reference-count map and the optimized set, its
`observedBits` is back to the sentinel, and the assigned bit is back on the
pool. -/
theorem ref_deref_symmetry (s : CoreState) (x b N : Nat)
    (hN : 1 ≤ N)
    (htag : s.observedBits x = some DEOPTIMIZED_SELECTOR)
    (hrc : s.selectorReferenceCount x = none)
    (hopt : x ∉ s.optimizedSelectors)
    (hpool : s.selectorBits.getLast? = some b)
    (hb : b ≠ DEOPTIMIZED_SELECTOR)
    (hqueue : s.optimizationQueue = []) :
    deoptN (optN s x N) x N = Except.ok s := by
  obtain ⟨n, rfl⟩ : ∃ n, N = n + 1 := ⟨N - 1, (Nat.succ_pred_eq_of_pos hN).symm⟩
  have h1 : optN s x (n + 1) = heldState s x b (n + 1) := by
    show optN (optimizeSelector s x) x n = _
    rw [optimize_fresh s x b htag hrc hopt hpool, optN_held s x b hb n 1]
    congr 1
    omega
  rw [h1]
  exact deoptN_held s x b htag hrc hopt hpool hqueue n

/-- Witness for C3 (amended) at a concrete input: two references then two
dereferences of selector 0 on a fresh one-selector core restore it
exactly. -/
theorem ref_deref_symmetry_witness :
    deoptN (optN (mkFreshCore 1) 0 2) 0 2 = Except.ok (mkFreshCore 1) :=
  ref_deref_symmetry (mkFreshCore 1) 0 536870912 2 (by decide) rfl rfl
    (by decide) (by decide) (by decide) rfl

/-- The multiset of bits currently assigned to optimized selectors. -/
def assignedBits (s : CoreState) : Multiset Nat :=
  ↑(s.optimizedSelectors.map fun y => (s.observedBits y).getD 0)

/-- The well-formedness invariant of the optimization core: the pool plus
the assigned bits form exactly the initial inventory of 29 bits, the
optimized set has no duplicates, every optimized selector carries a
non-sentinel tag, and every selector with a non-sentinel tag is in the
optimized set. -/
def WF (s : CoreState) : Prop :=
  ((↑s.selectorBits : Multiset Nat) + assignedBits s =
      (↑initSelectorBits : Multiset Nat)) ∧
    s.optimizedSelectors.Nodup ∧
    (∀ x ∈ s.optimizedSelectors,
      ∃ b, s.observedBits x = some b ∧ b ≠ DEOPTIMIZED_SELECTOR) ∧
    (∀ x b, s.observedBits x = some b → b ≠ DEOPTIMIZED_SELECTOR →
      x ∈ s.optimizedSelectors)

/-- The states reachable through the core API: creating selectors (on fresh
function objects), referencing, and dereferencing (the latter only when it
does not throw, since a thrown invariant leaves the closure unchanged). -/
inductive Reachable : CoreState → Prop
  | init : Reachable initialCoreState
  | create {s : CoreState} {x : Nat} : Reachable s →
      s.observedBits x = none → Reachable (createSelector s x)
  | opt {s : CoreState} (x : Nat) : Reachable s →
      Reachable (optimizeSelector s x)
  | deopt {s s' : CoreState} {x : Nat} : Reachable s →
      deoptimizeSelector s x = Except.ok s' → Reachable s'

lemma mem_initSelectorBits_ne_sentinel :
    ∀ b ∈ initSelectorBits, b ≠ DEOPTIMIZED_SELECTOR := by decide

lemma map_getD_update (l : List Nat) (f : Nat → Option Nat) (x : Nat)
    (v : Option Nat) (hx : x ∉ l) :
    (l.map fun y => (Function.update f x v y).getD 0) =
      l.map fun y => (f y).getD 0 := by
  apply List.map_congr_left
  intro a ha
  rw [Function.update_noteq (fun he : a = x => hx (he ▸ ha))]

lemma wf_init : WF initialCoreState := by
  refine ⟨?_, ?_, ?_, ?_⟩
  · simp [assignedBits, initialCoreState]
  · simp [initialCoreState]
  · intro x hx
    simp [initialCoreState] at hx
  · intro x b hb
    simp [initialCoreState] at hb

lemma wf_create (s : CoreState) (x : Nat) (hx : s.observedBits x = none)
    (h : WF s) : WF (createSelector s x) := by
  obtain ⟨hsum, hnd, hset, hmem⟩ := h
  have hxnot : x ∉ s.optimizedSelectors := by
    intro hx'
    obtain ⟨b, hb, _⟩ := hset x hx'
    rw [hx] at hb
    cases hb
  refine ⟨?_, hnd, ?_, ?_⟩
  · show (↑s.selectorBits : Multiset Nat) +
        ↑(s.optimizedSelectors.map fun y =>
          (Function.update s.observedBits x (some DEOPTIMIZED_SELECTOR) y).getD 0) =
      (↑initSelectorBits : Multiset Nat)
    rw [map_getD_update _ _ _ _ hxnot]
    exact hsum
  · intro y hy
    obtain ⟨b, hb, hb1⟩ := hset y hy
    have hyx : y ≠ x := fun he => hxnot (he ▸ hy)
    exact ⟨b, by rw [show (createSelector s x).observedBits y =
      s.observedBits y from Function.update_noteq hyx _ _]; exact hb, hb1⟩
  · intro y b hy hb1
    by_cases hyx : y = x
    · subst hyx
      rw [show (createSelector s y).observedBits y =
        some DEOPTIMIZED_SELECTOR from Function.update_same _ _ _] at hy
      cases hy
      exact absurd rfl hb1
    · rw [show (createSelector s x).observedBits y =
        s.observedBits y from Function.update_noteq hyx _ _] at hy
      exact hmem y b hy hb1

lemma wf_optimize (s : CoreState) (x : Nat) (h : WF s) :
    WF (optimizeSelector s x) := by
  obtain ⟨hsum, hnd, hset, hmem⟩ := h
  unfold optimizeSelector
  cases hob : s.observedBits x with
  | none => exact ⟨hsum, hnd, hset, hmem⟩
  | some ob =>
    dsimp only
    by_cases hob1 : ob = DEOPTIMIZED_SELECTOR
    · rw [if_neg (by simp [hob1])]
      cases hpool : s.selectorBits.getLast? with
      | none => exact ⟨hsum, hnd, hset, hmem⟩
      | some b =>
        have hxnot : x ∉ s.optimizedSelectors := by
          intro hx'
          obtain ⟨b', hb', hb1'⟩ := hset x hx'
          rw [hob] at hb'
          exact hb1' (by injection hb' with hb''; rw [← hb'', hob1])
        have hbpool : b ∈ s.selectorBits := by
          rw [← dropLast_append_of_getLast? s.selectorBits b hpool]
          exact List.mem_append_right _ (by simp)
        have hbmem : b ∈ initSelectorBits := by
          have h1 : b ∈ (↑s.selectorBits : Multiset Nat) + assignedBits s :=
            Multiset.mem_add.mpr (Or.inl (Multiset.mem_coe.mpr hbpool))
          rw [hsum] at h1
          exact Multiset.mem_coe.mp h1
        have hb1 : b ≠ DEOPTIMIZED_SELECTOR :=
          mem_initSelectorBits_ne_sentinel b hbmem
        rw [show setAdd s.optimizedSelectors x = s.optimizedSelectors ++ [x]
          from by unfold setAdd; rw [if_neg hxnot]]
        refine ⟨?_, ?_, ?_, ?_⟩
        · show (↑s.selectorBits.dropLast : Multiset Nat) +
              ↑((s.optimizedSelectors ++ [x]).map fun y =>
                (Function.update s.observedBits x (some b) y).getD 0) =
            (↑initSelectorBits : Multiset Nat)
          rw [List.map_append, map_getD_update _ _ _ _ hxnot]
          simp only [List.map_cons, List.map_nil, Function.update_same,
            Option.getD_some]
          rw [← Multiset.coe_add, ← hsum,
            show (↑s.selectorBits : Multiset Nat) =
              ↑s.selectorBits.dropLast + ↑([b] : List Nat) from by
              rw [Multiset.coe_add, dropLast_append_of_getLast? _ _ hpool]]
          unfold assignedBits
          abel
        · simp [List.nodup_append, hnd, hxnot]
        · intro y hy
          dsimp only at hy ⊢
          rcases List.mem_append.mp hy with hyl | hyr
          · obtain ⟨b', hb', hb1'⟩ := hset y hyl
            have hyx : y ≠ x := fun he => hxnot (he ▸ hyl)
            exact ⟨b', by rw [Function.update_noteq hyx]; exact hb', hb1'⟩
          · have hyx : y = x := by simpa using hyr
            subst hyx
            exact ⟨b, Function.update_same _ _ _, hb1⟩
        · intro y b' hy' hb1'
          dsimp only at hy' ⊢
          by_cases hyx : y = x
          · subst hyx
            exact List.mem_append_right _ (by simp)
          · rw [Function.update_noteq hyx] at hy'
            exact List.mem_append_left _ (hmem y b' hy' hb1')
    · rw [if_pos hob1]
      exact ⟨hsum, hnd, hset, hmem⟩

lemma wf_deoptimize (s s' : CoreState) (x : Nat) (h : WF s)
    (hd : deoptimizeSelector s x = Except.ok s') : WF s' := by
  obtain ⟨hsum, hnd, hset, hmem⟩ := h
  unfold deoptimizeSelector at hd
  cases hob : s.observedBits x with
  | none =>
    rw [hob] at hd
    injection hd with hd
    subst hd
    exact ⟨hsum, hnd, hset, hmem⟩
  | some ob =>
    rw [hob] at hd
    dsimp only at hd
    by_cases hx : x ∈ s.optimizedSelectors
    case neg =>
      rw [if_neg hx] at hd
      injection hd with hd
      subst hd
      exact ⟨hsum, hnd, hset, hmem⟩
    case pos =>
      rw [if_pos hx] at hd
      cases hrc : s.selectorReferenceCount x with
      | none => rw [hrc] at hd; simp at hd
      | some rc =>
        rw [hrc] at hd
        dsimp only at hd
        by_cases hrc0 : rc = 0
        · rw [if_pos hrc0] at hd
          simp at hd
        · rw [if_neg hrc0] at hd
          by_cases hrc1 : rc - 1 = 0
          · rw [if_pos hrc1] at hd
            have hxnoter : x ∉ s.optimizedSelectors.erase x :=
              fun hmem' => ((hnd.mem_erase_iff).mp hmem').1 rfl
            have hws1 : WF
                { s with selectorBits := s.selectorBits ++ [ob],
                         observedBits := Function.update s.observedBits x
                           (some DEOPTIMIZED_SELECTOR),
                         selectorReferenceCount :=
                           Function.update s.selectorReferenceCount x none,
                         optimizedSelectors :=
                           s.optimizedSelectors.erase x } := by
              refine ⟨?_, hnd.erase x, ?_, ?_⟩
              · show (↑(s.selectorBits ++ [ob]) : Multiset Nat) +
                    ↑((s.optimizedSelectors.erase x).map fun y =>
                      (Function.update s.observedBits x
                        (some DEOPTIMIZED_SELECTOR) y).getD 0) =
                  (↑initSelectorBits : Multiset Nat)
                rw [map_getD_update _ _ _ _ hxnoter, ← Multiset.coe_add]
                have hperm : List.Perm
                    (s.optimizedSelectors.map fun y => (s.observedBits y).getD 0)
                    (ob :: ((s.optimizedSelectors.erase x).map fun y =>
                      (s.observedBits y).getD 0)) := by
                  have h1 := (List.perm_cons_erase hx).map
                    fun y => (s.observedBits y).getD 0
                  simpa [hob] using h1
                rw [← hsum]
                unfold assignedBits
                rw [Multiset.coe_eq_coe.mpr hperm, ← Multiset.cons_coe,
                  ← Multiset.cons_coe, Multiset.coe_nil, Multiset.cons_zero,
                  add_assoc, Multiset.singleton_add]
              · intro y hy
                have hyx : y ≠ x := ((hnd.mem_erase_iff).mp hy).1
                obtain ⟨b', hb', hb1'⟩ :=
                  hset y ((hnd.mem_erase_iff).mp hy).2
                exact ⟨b', (Function.update_noteq hyx _ _).trans hb', hb1'⟩
              · intro y b' hy' hb1'
                by_cases hyx : y = x
                · subst hyx
                  have hy2 : (some DEOPTIMIZED_SELECTOR : Option Nat) = some b' :=
                    (Function.update_same y (some DEOPTIMIZED_SELECTOR)
                      s.observedBits).symm.trans hy'
                  injection hy2 with hy2
                  exact absurd hy2.symm hb1'
                · have hy2 : s.observedBits y = some b' :=
                    (Function.update_noteq hyx _ _).symm.trans hy'
                  exact (hnd.mem_erase_iff).mpr ⟨hyx, hmem y b' hy2 hb1'⟩
            cases hq : s.optimizationQueue.getLast? with
            | none =>
              rw [hq] at hd
              injection hd with hd
              subst hd
              exact hws1
            | some y =>
              rw [hq] at hd
              injection hd with hd
              subst hd
              exact wf_optimize _ y hws1
          · rw [if_neg hrc1] at hd
            injection hd with hd
            subst hd
            exact ⟨hsum, hnd, hset, hmem⟩

/-- Every reachable core state satisfies the pool invariant. -/
lemma reachable_wf (s : CoreState) (h : Reachable s) : WF s := by
  induction h with
  | init => exact wf_init
  | create hs hx ih => exact wf_create _ _ hx ih
  | opt x hs ih => exact wf_optimize _ x ih
  | deopt hs hd ih => exact wf_deoptimize _ _ _ ih hd

lemma initSelectorBits_length : initSelectorBits.length = 29 := by decide

lemma initSelectorBits_nodup : initSelectorBits.Nodup := by decide

/-- C5: every reachable state of the optimization core satisfies the pool
invariant: the number of available pool bits plus the number of selectors
holding a bit is always 29; every pool bit belongs to the initial inventory;
every optimized selector's assigned bit belongs to the initial inventory
(which is exactly the 29 distinct powers of two 2^1 .. 2^29); and two
distinct optimized selectors never hold the same bit. -/
theorem bit_pool_conservation (s : CoreState) (h : Reachable s) :
    s.selectorBits.length + s.optimizedSelectors.length = 29 ∧
      (∀ b ∈ s.selectorBits, b ∈ initSelectorBits) ∧
      (∀ x ∈ s.optimizedSelectors,
        (s.observedBits x).getD 0 ∈ initSelectorBits) ∧
      (∀ x ∈ s.optimizedSelectors, ∀ y ∈ s.optimizedSelectors, x ≠ y →
        (s.observedBits x).getD 0 ≠ (s.observedBits y).getD 0) ∧
      initSelectorBits = (List.range 29).map fun i => 2 ^ (i + 1) := by
  obtain ⟨hsum, hnd, hset, hmem⟩ := reachable_wf s h
  refine ⟨?_, ?_, ?_, ?_, by decide⟩
  · have hcard := congrArg Multiset.card hsum
    simpa [assignedBits, initSelectorBits_length] using hcard
  · intro b hb
    have h1 : b ∈ (↑s.selectorBits : Multiset Nat) + assignedBits s :=
      Multiset.mem_add.mpr (Or.inl (Multiset.mem_coe.mpr hb))
    rw [hsum] at h1
    exact Multiset.mem_coe.mp h1
  · intro x hx
    have h1 : (s.observedBits x).getD 0 ∈ assignedBits s :=
      Multiset.mem_coe.mpr
        (List.mem_map_of_mem (fun y => (s.observedBits y).getD 0) hx)
    have h2 : (s.observedBits x).getD 0 ∈
        (↑s.selectorBits : Multiset Nat) + assignedBits s :=
      Multiset.mem_add.mpr (Or.inr h1)
    rw [hsum] at h2
    exact Multiset.mem_coe.mp h2
  · intro x hx y hy hxy heq
    have hyerase : y ∈ s.optimizedSelectors.erase x :=
      (hnd.mem_erase_iff).mpr ⟨Ne.symm hxy, hy⟩
    have hperm : List.Perm
        (s.optimizedSelectors.map fun z => (s.observedBits z).getD 0)
        (((s.observedBits x).getD 0) ::
          ((s.optimizedSelectors.erase x).map fun z =>
            (s.observedBits z).getD 0)) :=
      (List.perm_cons_erase hx).map fun z => (s.observedBits z).getD 0
    have hcount2 : 2 ≤ Multiset.count ((s.observedBits x).getD 0)
        (assignedBits s) := by
      unfold assignedBits
      rw [Multiset.coe_eq_coe.mpr hperm, ← Multiset.cons_coe,
        Multiset.count_cons_self]
      have hmemy : (s.observedBits x).getD 0 ∈
          (s.optimizedSelectors.erase x).map fun z =>
            (s.observedBits z).getD 0 := by
        rw [heq]
        exact List.mem_map_of_mem (fun z => (s.observedBits z).getD 0) hyerase
      have h1 : 1 ≤ Multiset.count ((s.observedBits x).getD 0)
          (↑((s.optimizedSelectors.erase x).map fun z =>
            (s.observedBits z).getD 0) : Multiset Nat) :=
        Multiset.one_le_count_iff_mem.mpr (Multiset.mem_coe.mpr hmemy)
      omega
    have hcount1 : Multiset.count ((s.observedBits x).getD 0)
        (↑initSelectorBits : Multiset Nat) ≤ 1 :=
      (Multiset.nodup_iff_count_le_one.mp
        (Multiset.coe_nodup.mpr initSelectorBits_nodup)) _
    have hle : Multiset.count ((s.observedBits x).getD 0) (assignedBits s) ≤
        Multiset.count ((s.observedBits x).getD 0)
          (↑initSelectorBits : Multiset Nat) := by
      rw [← hsum, Multiset.count_add]
      omega
    omega

/-- A small reachable state: one selector created and referenced once. -/
def demoState : CoreState :=
  optimizeSelector (createSelector initialCoreState 0) 0

/-- Witness for C5 at a concrete reachable state. -/
theorem bit_pool_conservation_witness :
    demoState.selectorBits.length + demoState.optimizedSelectors.length = 29 ∧
      (∀ b ∈ demoState.selectorBits, b ∈ initSelectorBits) ∧
      (∀ x ∈ demoState.optimizedSelectors,
        (demoState.observedBits x).getD 0 ∈ initSelectorBits) ∧
      (∀ x ∈ demoState.optimizedSelectors,
        ∀ y ∈ demoState.optimizedSelectors, x ≠ y →
        (demoState.observedBits x).getD 0 ≠
          (demoState.observedBits y).getD 0) ∧
      initSelectorBits = (List.range 29).map fun i => 2 ^ (i + 1) :=
  bit_pool_conservation demoState
    (Reachable.opt 0 (Reachable.create Reachable.init rfl))

end ReactCopyWrite
